import Mathlib

/-!
Verification of the mail-client core (`src/mail2.py`) against its
natural-language specification.

The Python source is shallowly embedded: pure string manipulation is
translated to functions on `String` (a structure holding a `List Char`,
matching Python's sequence-of-code-points view of `str`) or on `List Char`;
network and standard-library calls whose outcomes the code branches on
(socket connects, logins, the `email` package decoders) are passed in as
explicit result values or result-returning oracle functions, so that every
control path of the Python code is a computable path here.  Python
exceptions are modelled with `Except`; a function that can let an exception
escape to its caller returns an `Except` value.

Modelling conventions, used throughout:
* Python `str.lower()` is modelled as ASCII lowering of each character
  (`Char.toLower`); the tokens compared against ("re:", "fw:", "OK", folder
  names) are ASCII, where the two agree.
* Python `bytes.decode(..., errors="replace")` is total (it always returns
  a string), and is modelled by a total oracle function.
-/

/-! ## SmtpClient.connect (src/mail2.py lines 187-207)

The connection-strategy logic.  `CONFIG["smtp"]["ssl"]` and
`CONFIG["smtp"].get("starttls_fallback", False)` become the two `Bool`
parameters.  The implicit-TLS step (`SMTP_SSL` + `login`, lines 192-193)
and the opportunistic-upgrade step (`SMTP` + `ehlo` + `starttls` + `login`,
lines 201-204) are each collapsed into one `Except String Unit` oracle
carrying the exception message on failure.  Besides the Python return
value, the embedding also records which strategies were attempted, in
order, so that "the fallback is attempted exactly once / never" is a
statement about the model. -/

inductive ConnAttempt : Type where
  | implicitTls : ConnAttempt
  | starttls : ConnAttempt
deriving DecidableEq

/-- Embedding of `SmtpClient.connect`.  First component of the result is
the outcome (`.error e` models the method raising `e`), second component
is the ordered list of connection strategies attempted. -/
def SmtpClient.connect (ssl starttls_fallback : Bool)
    (implicitRes starttlsRes : Except String Unit) :
    Except String Unit × List ConnAttempt :=
  if ssl then
    match implicitRes with
    | .ok _ => (.ok (), [.implicitTls])
    | .error e =>
      if starttls_fallback then
        (starttlsRes, [.implicitTls, .starttls])
      else
        (.error e, [.implicitTls])
  else
    -- line 196: `raise Exception("SSL není povoleno v configu")`, caught by
    -- the same `except` block; no implicit-TLS connection is attempted.
    if starttls_fallback then
      (starttlsRes, [.starttls])
    else
      (.error "SSL není povoleno v configu", [])

/-! ## Shared string helpers (models of Python `str` methods) -/

/-- Model of Python `str.lower()` (ASCII range). -/
def pyLower (s : String) : String := ⟨s.data.map Char.toLower⟩

/-- Model of Python `str.startswith(pre)`. -/
def pyStartsWith (s pre : String) : Bool := pre.data.isPrefixOf s.data

/-- Characters stripped by Python `str.strip()` / split on by `str.split()`
with no argument (the ASCII whitespace characters). -/
def pyIsSpace (c : Char) : Bool :=
  c == ' ' || c == '\t' || c == '\n' || c == '\r' || c == '\x0b' || c == '\x0c'

/-- Model of Python `str.strip()`: remove leading and trailing whitespace. -/
def pyStrip (l : List Char) : List Char :=
  ((l.dropWhile pyIsSpace).reverse.dropWhile pyIsSpace).reverse

/-- Model of Python `str.strip('"')`: remove leading and trailing quote
characters. -/
def pyStripQuotes (l : List Char) : List Char :=
  ((l.dropWhile (fun c => c == '"')).reverse.dropWhile (fun c => c == '"')).reverse

/-- Model of Python `str.split(sep)` for a one-character separator: split at
every occurrence, keeping empty pieces. -/
def pySplitOn (sep : Char) : List Char → List (List Char)
  | [] => [[]]
  | c :: rest =>
    if c = sep then
      [] :: pySplitOn sep rest
    else
      match pySplitOn sep rest with
      | [] => [[c]]
      | h :: t => (c :: h) :: t

/-- Accumulator loop for `pySplitWs`; `acc` holds the current word reversed. -/
def pySplitWsAux : List Char → List Char → List (List Char)
  | [], acc => if acc.isEmpty then [] else [acc.reverse]
  | c :: rest, acc =>
    if pyIsSpace c then
      if acc.isEmpty then pySplitWsAux rest [] else acc.reverse :: pySplitWsAux rest []
    else
      pySplitWsAux rest (c :: acc)

/-- Model of Python `str.split()` with no argument: split on runs of
whitespace, discarding empty pieces. -/
def pySplitWs (l : List Char) : List (List Char) := pySplitWsAux l []

/-! ## ImapClient.list_mailboxes (src/mail2.py lines 115-135) -/

/-- Scanner state machine equivalent to `re.findall(r'"([^"]+)"', decoded)`
(line 128): `none` = outside a candidate match, `some acc` = a `"` has been
read and `acc` holds the (reversed) characters matched by `[^"]+` so far.
A closing `"` after at least one non-quote character emits a match and
resumes after it; a `"` immediately after an opening `"` restarts the
attempt at that second quote, exactly as the regex engine advances. -/
def findQuotedAux : List Char → Option (List Char) → List String
  | [], _ => []
  | c :: rest, none =>
    if c = '"' then findQuotedAux rest (some []) else findQuotedAux rest none
  | c :: rest, some acc =>
    if c = '"' then
      if acc.isEmpty then findQuotedAux rest (some [])
      else ⟨acc.reverse⟩ :: findQuotedAux rest none
    else
      findQuotedAux rest (some (c :: acc))

/-- All quoted tokens of a listing line, in order (`re.findall` model). -/
def findQuoted (l : List Char) : List String := findQuotedAux l none

/-- Name extraction for one (already decoded) listing line, lines 128-132:
the last quoted token if any (`m[-1]`), else the last whitespace-delimited
token stripped of quotes (`decoded.split()[-1].strip('"')`).  `none` models
the `IndexError` that `[-1]` raises when the line has no token at all. -/
def extract_name (decoded : String) : Option String :=
  match (findQuoted decoded.data).getLast? with
  | some name => some name
  | none =>
    match (pySplitWs decoded.data).getLast? with
    | some tok => some ⟨pyStripQuotes tok⟩
    | none => none

/-- The `for line in data` loop of `list_mailboxes` (lines 123-134): extract
a name from each line, keep it unless it is empty, `"."`, or `'""'`
(line 133).  An extraction failure (`IndexError`) aborts the whole loop,
modelled by `.error ()`. -/
def collect_names : List String → Except Unit (List String)
  | [] => .ok []
  | line :: rest =>
    match extract_name line with
    | none => .error ()
    | some name =>
      if name != "" && name != "." && name != "\"\"" then
        match collect_names rest with
        | .error e => .error e
        | .ok names => .ok (name :: names)
      else
        collect_names rest

/-- Case-insensitive comparison used as the sort order: Python
`sorted(..., key=str.lower)` compares the lowered strings code point by
code point.  `lexLe x y` is that lexicographic `≤` on code points. -/
def lexLe : List Char → List Char → Bool
  | [], _ => true
  | _ :: _, [] => false
  | a :: as, b :: bs =>
    if a.toNat < b.toNat then true
    else if b.toNat < a.toNat then false
    else lexLe as bs

/-- The key-based order of `sorted(set(boxes), key=str.lower)` (line 135). -/
def ciLe (a b : String) : Prop := lexLe (pyLower a).data (pyLower b).data = true

instance : DecidableRel ciLe := fun a b =>
  inferInstanceAs (Decidable (lexLe (pyLower a).data (pyLower b).data = true))

/-- Embedding of `ImapClient.list_mailboxes`.  `typ` and `data` are the
server response (`self.conn.list(...)`, line 119); lines are taken
already decoded (`line.decode("utf-8", errors="replace")` on line 125 is
total).  `sorted(set(boxes), key=str.lower)` becomes a stable insertion
sort by `ciLe` of the exact-equality deduplication of `boxes`.  `.error`
models the call raising `IndexError` out of the loop. -/
def list_mailboxes (typ : String) (data : List String) :
    Except Unit (List String) :=
  if typ != "OK" || data.isEmpty then .ok []
  else
    match collect_names data with
    | .error e => .error e
    | .ok boxes => .ok (List.insertionSort ciLe boxes.dedup)

/-! ## SmtpClient.send_text (src/mail2.py lines 216-238) -/

/-- The archival step of `send_text` (lines 231-235): select the sent
folder, then append the message.  Both calls sit in one `try` block; the
first failure is the exception that reaches the `except`. -/
def archive_step (selectRes appendRes : Except String Unit) :
    Except String Unit :=
  match selectRes with
  | .error e => .error e
  | .ok _ => appendRes

/-- Embedding of `SmtpClient.send_text` from the transmission on
(lines 226-238; message construction above it does not branch).  `sendRes`
is the outcome of `self.conn.send_message(msg)`; `imap` is `None` or the
pair of outcomes of the archival sub-steps.  Result: the value/exception of
the call, plus the list of warnings printed (line 238). -/
def send_text (sendRes : Except String Unit)
    (imap : Option (Except String Unit × Except String Unit)) :
    Except String Unit × List String :=
  match sendRes with
  | .error e => (.error e, [])
  | .ok _ =>
    match imap with
    | none => (.ok (), [])
    | some (selectRes, appendRes) =>
      match archive_step selectRes appendRes with
      | .ok _ => (.ok (), [])
      | .error e =>
        (.ok (), ["IMAP: nepodařilo se uložit do Sent (" ++ e ++ ")."])

/-! ## Reply and forward subject rules
(src/mail2.py lines 360-364 and 376-380) -/

/-- Subject rewriting in `MailApp.reply_to_message` (lines 362-364), applied
after `original.get("Subject") or ""` normalised a missing subject to `""`. -/
def reply_subject (subject : String) : String :=
  if pyStartsWith (pyLower subject) "re:" then subject
  else "Re: " ++ subject

/-- Subject rewriting in `MailApp.forward_message` (lines 378-380); note the
tested token is `"fw:"` while the added prefix is `"Fwd: "`, exactly as in
the source. -/
def forward_subject (subject : String) : String :=
  if pyStartsWith (pyLower subject) "fw:" then subject
  else "Fwd: " ++ subject

/-! ## extract_text_plain (src/mail2.py lines 59-80) -/

/-- The tree shape of a parsed `EmailMessage`: a leaf part with a
maintype/subtype, optional content disposition and the outcomes of its two
decode attempts, or a container with sub-messages.  `getContentRes` is the
oracle for `part.get_content()` (line 64), which raises for example on an
unknown declared charset; `payloadDecodeRes` is the oracle for the fallback
`part.get_payload(decode=True).decode(part.get_content_charset() or
FALLBACK_CHARSET, errors="replace")` (line 67), which raises too when the
part *declares* an unknown charset (`errors="replace"` does not save the
codec lookup).  Both failing is therefore a representable, reachable
state. -/
inductive PyMessage : Type where
  | single (maintype subtype : String) (disposition : Option String)
      (getContentRes payloadDecodeRes : Except Unit String)
  | multipart (subtype : String) (parts : List PyMessage)

/-- Model of `EmailMessage.get_content_type()`. -/
def content_type : PyMessage → String
  | .single mt st _ _ _ => mt ++ "/" ++ st
  | .multipart st _ => "multipart/" ++ st

/-- Model of `EmailMessage.get_content_disposition()`. -/
def get_content_disposition : PyMessage → Option String
  | .single _ _ d _ _ => d
  | .multipart _ _ => none

/-- The decode chain of lines 63-69 applied to one part: `get_content()`
first, the payload fallback on failure; `none` models both attempts
raising (the `except: continue` / line 79 path).  A container never
reaches this code because its content type starts with `multipart/`. -/
def try_decode : PyMessage → Option String
  | .single _ _ _ (.ok t) _ => some t
  | .single _ _ _ (.error _) (.ok t) => some t
  | .single _ _ _ (.error _) (.error _) => none
  | .multipart _ _ => none

mutual
/-- Model of `EmailMessage.walk()`: the message itself, then every
sub-message in depth-first document order. -/
def walk : PyMessage → List PyMessage
  | .single mt st d g p => [.single mt st d g p]
  | .multipart st parts => .multipart st parts :: walkList parts
def walkList : List PyMessage → List PyMessage
  | [] => []
  | p :: ps => walk p ++ walkList ps
end

/-- The loop condition of line 62: a `text/plain` part that is not an
attachment. -/
def isReadable (p : PyMessage) : Bool :=
  content_type p == "text/plain" && get_content_disposition p != some "attachment"

/-- The `for part in msg.walk()` loop of lines 61-70: a readable part whose
decode chain succeeds is returned; a readable part whose decode chain fails
entirely is skipped (`except: continue`, lines 68-69), like any unreadable
part; falling off the loop yields the line-70 placeholder. -/
def scan_parts : List PyMessage → String
  | [] => "(Žádná čitelná textová část.)"
  | p :: rest =>
    if isReadable p then
      match try_decode p with
      | some t => t
      | none => scan_parts rest
    else
      scan_parts rest

/-- Embedding of `extract_text_plain`: on a multipart message, the loop over
`msg.walk()` (lines 60-70); otherwise the single-part branch keyed on the
maintype (lines 71-80), including the line-79 placeholder when both decode
attempts of a textual single-part message fail. -/
def extract_text_plain (m : PyMessage) : String :=
  match m with
  | .multipart st parts => scan_parts (walk (.multipart st parts))
  | .single mt _ _ gRes pRes =>
    if mt == "text" then
      match gRes with
      | .ok t => t
      | .error _ =>
        match pRes with
        | .ok t => t
        | .error _ => "(Nelze dekódovat tělo zprávy.)"
    else
      "(Zpráva není textového typu.)"

/-! ## decode_maybe (src/mail2.py lines 48-57) -/

/-- The raw values a header accessor can hand to `decode_maybe`: `None`, a
string, or raw bytes. -/
inductive HeaderValue : Type where
  | none : HeaderValue
  | str (s : String) : HeaderValue
  | bytes (b : List Nat) : HeaderValue

/-- Embedding of `decode_maybe`.  `primary v` is the oracle for
`str(make_header(decode_header(v)))` (line 52), which may raise; `repl b`
is the oracle for `b.decode(FALLBACK_CHARSET, errors="replace")` (line 55),
which is total, so the innermost `except` (line 56) is unreachable for the
values modelled here and `str(value)` on a string is the string itself. -/
def decode_maybe (primary : HeaderValue → Except Unit String)
    (repl : List Nat → String) : HeaderValue → String
  | .none => ""
  | .str s =>
    match primary (.str s) with
    | .ok out => out
    | .error _ => s
  | .bytes b =>
    match primary (.bytes b) with
    | .ok out => out
    | .error _ => repl b

/-! ## ImapClient.fetch_headers (src/mail2.py lines 152-162) -/

/-- One item of the `FETCH` response data list: either the header tuple
(whose parsed form yields the three raw header values) or anything else
(the closing-paren bytes, `None`, ...). -/
inductive FetchDatum : Type where
  | tup (fromV subjV dateV : HeaderValue) : FetchDatum
  | nontup : FetchDatum

/-- Embedding of `ImapClient.fetch_headers`: the guard of line 155 returns
three empty strings unless the status is `"OK"`, the data list is non-empty
and its first item is a tuple; otherwise the three headers of the parsed
message are decoded with `decode_maybe` (lines 157-162). -/
def fetch_headers (primary : HeaderValue → Except Unit String)
    (repl : List Nat → String) (typ : String) (data : List FetchDatum) :
    String × String × String :=
  match typ == "OK", data with
  | true, .tup fromV subjV dateV :: _ =>
    (decode_maybe primary repl fromV, decode_maybe primary repl subjV,
      decode_maybe primary repl dateV)
  | _, _ => ("", "", "")

/-! ## MailApp.compose_and_send (src/mail2.py lines 346-358) and
input_nonempty (lines 82-87) -/

/-- Postcondition of `input_nonempty`: the returned line is already
stripped (`input(prompt).strip()`) and non-empty (the loop repeats until
`if s:` holds). -/
def input_nonempty_post (s : List Char) : Prop := pyStrip s = s ∧ s ≠ []

/-- The recipient-list construction of line 357:
`[a.strip() for a in to_line.split(",") if a.strip()]`. -/
def split_addrs (to_line : List Char) : List (List Char) :=
  ((pySplitOn ',' to_line).map pyStrip).filter (fun a => !a.isEmpty)

/-! ## Helper lemmas -/

theorem lexLe_total : ∀ x y : List Char, lexLe x y = true ∨ lexLe y x = true
  | [], _ => Or.inl rfl
  | _ :: _, [] => Or.inr rfl
  | a :: as, b :: bs => by
    rcases Nat.lt_trichotomy a.toNat b.toNat with h | h | h
    · exact Or.inl (by simp [lexLe, h])
    · rcases lexLe_total as bs with ih | ih
      · exact Or.inl (by simp [lexLe, h, ih])
      · exact Or.inr (by simp [lexLe, h, ih])
    · exact Or.inr (by simp [lexLe, h])

theorem lexLe_trans :
    ∀ x y z : List Char, lexLe x y = true → lexLe y z = true → lexLe x z = true
  | [], _, _, _, _ => rfl
  | _ :: _, [], _, h1, _ => by simp [lexLe] at h1
  | _ :: _, _ :: _, [], _, h2 => by simp [lexLe] at h2
  | a :: as, b :: bs, c :: cs, h1, h2 => by
    simp only [lexLe] at h1 h2 ⊢
    by_cases hab1 : a.toNat < b.toNat
    · by_cases hbc1 : b.toNat < c.toNat
      · simp [Nat.lt_trans hab1 hbc1]
      · by_cases hbc2 : c.toNat < b.toNat
        · simp [hbc1, hbc2] at h2
        · have hac : a.toNat < c.toNat := by omega
          simp [hac]
    · by_cases hab2 : b.toNat < a.toNat
      · simp [hab1, hab2] at h1
      · by_cases hbc1 : b.toNat < c.toNat
        · have hac : a.toNat < c.toNat := by omega
          simp [hac]
        · by_cases hbc2 : c.toNat < b.toNat
          · simp [hbc1, hbc2] at h2
          · have hac1 : ¬ a.toNat < c.toNat := by omega
            have hac2 : ¬ c.toNat < a.toNat := by omega
            simp only [if_neg hab1, if_neg hab2] at h1
            simp only [if_neg hbc1, if_neg hbc2] at h2
            simp only [if_neg hac1, if_neg hac2]
            exact lexLe_trans as bs cs h1 h2

instance : IsTotal String ciLe := ⟨fun _ _ => lexLe_total _ _⟩

instance : IsTrans String ciLe := ⟨fun _ _ _ h1 h2 => lexLe_trans _ _ _ h1 h2⟩

theorem collect_names_filtered (data : List String) :
    ∀ names, collect_names data = .ok names →
      ∀ n ∈ names, n ≠ "" ∧ n ≠ "." ∧ n ≠ "\"\"" := by
  induction data with
  | nil =>
    intro names h n hn
    simp only [collect_names] at h
    injection h with h'
    subst h'
    cases hn
  | cons line rest ih =>
    intro names h n hn
    cases hx : extract_name line with
    | none =>
      simp only [collect_names, hx] at h
      exact Except.noConfusion h
    | some name =>
      simp only [collect_names, hx] at h
      by_cases hc : (name != "" && name != "." && name != "\"\"") = true
      · rw [if_pos hc] at h
        cases hr : collect_names rest with
        | error e => rw [hr] at h; exact Except.noConfusion h
        | ok names' =>
          rw [hr] at h
          injection h with h'
          subst h'
          rcases List.mem_cons.mp hn with rfl | hn'
          · simp only [Bool.and_eq_true, bne_iff_ne] at hc
            exact ⟨hc.1.1, hc.1.2, hc.2⟩
          · exact ih names' hr n hn'
      · rw [if_neg hc] at h
        exact ih names h n hn

theorem scan_parts_first :
    ∀ (w1 : List PyMessage) (p : PyMessage) (w2 : List PyMessage) (t : String),
      (∀ q ∈ w1, isReadable q = false ∨ try_decode q = none) →
      isReadable p = true → try_decode p = some t →
      scan_parts (w1 ++ p :: w2) = t
  | [], p, w2, t, _, hp, ht => by
    rw [List.nil_append]
    simp [scan_parts, hp, ht]
  | q :: qs, p, w2, t, h, hp, ht => by
    rw [List.cons_append]
    have hrest := scan_parts_first qs p w2 t
      (fun x hx => h x (List.mem_cons_of_mem q hx)) hp ht
    rcases h q (List.mem_cons_self q qs) with hq | hq
    · simpa [scan_parts, hq] using hrest
    · by_cases hr : isReadable q = true
      · simpa [scan_parts, hr, hq] using hrest
      · have hr' : isReadable q = false := by simpa using hr
        simpa [scan_parts, hr'] using hrest

theorem scan_parts_none :
    ∀ l : List PyMessage,
      (∀ q ∈ l, isReadable q = false ∨ try_decode q = none) →
      scan_parts l = "(Žádná čitelná textová část.)"
  | [], _ => rfl
  | q :: rest, h => by
    have hrest := scan_parts_none rest (fun x hx => h x (List.mem_cons_of_mem q hx))
    rcases h q (List.mem_cons_self q rest) with hq | hq
    · simpa [scan_parts, hq] using hrest
    · by_cases hr : isReadable q = true
      · simpa [scan_parts, hr, hq] using hrest
      · have hr' : isReadable q = false := by simpa using hr
        simpa [scan_parts, hr'] using hrest

theorem mem_dropWhile_of_neg {p : Char → Bool} {c : Char} (hc : p c = false) :
    ∀ l : List Char, c ∈ l → c ∈ l.dropWhile p
  | [], h => absurd h (by simp)
  | x :: xs, h => by
    rw [List.dropWhile_cons]
    by_cases hx : p x = true
    · rw [if_pos hx]
      rcases List.mem_cons.mp h with rfl | h'
      · rw [hx] at hc; cases hc
      · exact mem_dropWhile_of_neg hc xs h'
    · rw [if_neg hx]
      exact h

theorem mem_pyStrip {c : Char} (hc : pyIsSpace c = false) (l : List Char)
    (h : c ∈ l) : c ∈ pyStrip l := by
  unfold pyStrip
  rw [List.mem_reverse]
  exact mem_dropWhile_of_neg hc _ (List.mem_reverse.mpr (mem_dropWhile_of_neg hc l h))

theorem pySplitOn_ne_nil (sep : Char) : ∀ l, pySplitOn sep l ≠ []
  | [] => by simp [pySplitOn]
  | c :: rest => by
    by_cases h : c = sep
    · simp [pySplitOn, h]
    · simp only [pySplitOn, if_neg h]
      cases pySplitOn sep rest <;> simp

theorem mem_pySplitOn {c sep : Char} (hne : c ≠ sep) :
    ∀ l : List Char, c ∈ l → ∃ chunk ∈ pySplitOn sep l, c ∈ chunk
  | [], h => absurd h (by simp)
  | d :: rest, h => by
    by_cases hd : d = sep
    · subst hd
      rcases List.mem_cons.mp h with rfl | h'
      · exact absurd rfl hne
      · obtain ⟨ch, hch, hcc⟩ := mem_pySplitOn hne rest h'
        refine ⟨ch, ?_, hcc⟩
        simp only [pySplitOn, if_pos rfl]
        exact List.mem_cons_of_mem _ hch
    · obtain ⟨hh, ht, hrest⟩ : ∃ hh ht, pySplitOn sep rest = hh :: ht := by
        cases hx : pySplitOn sep rest with
        | nil => exact absurd hx (pySplitOn_ne_nil sep rest)
        | cons hh ht => exact ⟨hh, ht, rfl⟩
      rcases List.mem_cons.mp h with rfl | h'
      · refine ⟨c :: hh, ?_, List.mem_cons_self c hh⟩
        simp [pySplitOn, hd, hrest]
      · obtain ⟨ch, hch, hcc⟩ := mem_pySplitOn hne rest h'
        rw [hrest] at hch
        rcases List.mem_cons.mp hch with rfl | hch'
        · refine ⟨d :: ch, ?_, List.mem_cons_of_mem d hcc⟩
          simp [pySplitOn, hd, hrest]
        · refine ⟨ch, ?_, hcc⟩
          simp [pySplitOn, hd, hrest, hch']

/-! ## Claims -/

/-- C1: with implicit TLS primary and fallback disallowed, a failure of the
implicit-TLS connect/authenticate step makes `connect` fail immediately
with the original error and the STARTTLS path is never attempted (zero
`starttls` attempts); with fallback allowed, the same failure makes the
STARTTLS path be attempted exactly once, and its outcome is the reported
outcome of `connect`. -/
theorem smtp_connect_fallback_gating (e : String)
    (starttlsRes : Except String Unit) :
    (SmtpClient.connect true false (.error e) starttlsRes
        = (.error e, [.implicitTls]) ∧
      (SmtpClient.connect true false (.error e) starttlsRes).2.count .starttls
        = 0) ∧
    (SmtpClient.connect true true (.error e) starttlsRes
        = (starttlsRes, [.implicitTls, .starttls]) ∧
      (SmtpClient.connect true true (.error e) starttlsRes).2.count .starttls
        = 1) :=
  ⟨⟨rfl, rfl⟩, ⟨rfl, rfl⟩⟩

/-- C2 counterexample: two listing lines whose names differ only in letter
case both survive `sorted(set(boxes), key=str.lower)` — the `set`
deduplication is by exact string equality, not case-insensitive, so the
result keeps two entries of the same case-class. -/
theorem list_mailboxes_ci_dedup_cex :
    list_mailboxes "OK" ["\"INBOX\"", "\"Inbox\""] = .ok ["INBOX", "Inbox"] ∧
    pyLower "INBOX" = pyLower "Inbox" ∧ "INBOX" ≠ "Inbox" :=
  ⟨rfl, rfl, by decide⟩

/-- C2 (amended): every successful folder listing is sorted
case-insensitively (by the lowered-string order `ciLe`) and contains no two
identical entries; deduplication is by exact string equality, so names
differing only in letter case may each appear. -/
theorem list_mailboxes_sorted_nodup (typ : String) (data : List String)
    (names : List String) (h : list_mailboxes typ data = .ok names) :
    List.Sorted ciLe names ∧ names.Nodup := by
  unfold list_mailboxes at h
  by_cases hg : (typ != "OK" || data.isEmpty) = true
  · rw [if_pos hg] at h
    injection h with h'
    subst h'
    exact ⟨List.sorted_nil, List.nodup_nil⟩
  · rw [if_neg hg] at h
    cases hc : collect_names data with
    | error e => rw [hc] at h; exact Except.noConfusion h
    | ok boxes =>
      rw [hc] at h
      injection h with h'
      subst h'
      exact ⟨List.sorted_insertionSort ciLe _,
        (List.perm_insertionSort ciLe _).symm.nodup (List.nodup_dedup _)⟩

theorem list_mailboxes_sorted_nodup_witness :
    List.Sorted ciLe ["a", "b"] ∧ List.Nodup (["a", "b"] : List String) :=
  list_mailboxes_sorted_nodup "OK" ["\"b\"", "\"a\""] ["a", "b"] rfl

/-- C8 counterexample: a listing response containing a well-formed line and
one malformed (empty) line.  The empty line is not skipped: name extraction
raises (`decoded.split()[-1]` on an empty split result), aborting the whole
listing, which returns an error instead of the one good name. -/
theorem list_mailboxes_malformed_line_cex :
    extract_name "\"INBOX\"" = some "INBOX" ∧ extract_name "" = none ∧
    list_mailboxes "OK" ["\"INBOX\"", ""] = .error () :=
  ⟨rfl, rfl, rfl⟩

/-- C8 (amended): the extracted folder name is the final quoted token of
the line, or the last bare (whitespace-delimited) token stripped of quotes
if the line contains no quoted token; `(\HasNoChildren) "/" "INBOX.Trash"`
yields `INBOX.Trash`; empty, `"."` and `'""'` sentinel names are filtered
out; but a line that yields no token at all (empty or whitespace-only) is
not skipped — it raises and aborts the whole listing. -/
theorem list_mailboxes_name_extraction :
    (extract_name "(\\HasNoChildren) \"/\" \"INBOX.Trash\""
        = some "INBOX.Trash") ∧
    (∀ line name, (findQuoted line.data).getLast? = some name →
        extract_name line = some name) ∧
    (∀ line tok, findQuoted line.data = [] →
        (pySplitWs line.data).getLast? = some tok →
        extract_name line = some ⟨pyStripQuotes tok⟩) ∧
    (∀ data names, collect_names data = .ok names →
        ∀ n ∈ names, n ≠ "" ∧ n ≠ ".") ∧
    (list_mailboxes "OK" ["\"A\"", " "] = .error ()) := by
  refine ⟨rfl, ?_, ?_, ?_, rfl⟩
  · intro line name h
    simp [extract_name, h]
  · intro line tok h1 h2
    simp [extract_name, h1, h2]
  · intro data names h n hn
    exact ⟨(collect_names_filtered data names h n hn).1,
      (collect_names_filtered data names h n hn).2.1⟩

theorem list_mailboxes_name_extraction_witness :
    extract_name "x \"Sent\"" = some "Sent" ∧
    extract_name "() NoQuotes" = some "NoQuotes" ∧
    (∀ n ∈ ["INBOX"], n ≠ "" ∧ n ≠ ".") :=
  ⟨list_mailboxes_name_extraction.2.1 "x \"Sent\"" "Sent" (by decide),
   list_mailboxes_name_extraction.2.2.1 "() NoQuotes" "NoQuotes".data
     (by decide) (by decide),
   list_mailboxes_name_extraction.2.2.2.1 ["\"INBOX\""] ["INBOX"] rfl⟩

/-- C3: when transmission succeeds and an archiver session is supplied, any
failure of the archival step (folder selection or append) is caught: the
call still returns success, the result is the same as with no archiver at
all, and the failure surfaces only as the printed warning. -/
theorem send_text_archival_nonfatal (selectRes appendRes : Except String Unit)
    (e : String) (h : archive_step selectRes appendRes = .error e) :
    (send_text (.ok ()) (some (selectRes, appendRes))).1 = .ok () ∧
    (send_text (.ok ()) (some (selectRes, appendRes))).1
      = (send_text (.ok ()) none).1 ∧
    (send_text (.ok ()) (some (selectRes, appendRes))).2
      = ["IMAP: nepodařilo se uložit do Sent (" ++ e ++ ")."] := by
  refine ⟨?_, ?_, ?_⟩ <;> simp [send_text, h]

theorem send_text_archival_nonfatal_witness :
    (send_text (.ok ()) (some (.error "boom", .ok ()))).1 = .ok () :=
  (send_text_archival_nonfatal (.error "boom") (.ok ()) "boom" rfl).1

/-- C4: `forward` leaves the subject unchanged when it already starts,
case-insensitively, with the token `fw:`, and otherwise prepends exactly
`Fwd: `. -/
theorem forward_subject_spec (s : String) :
    (pyStartsWith (pyLower s) "fw:" = true → forward_subject s = s) ∧
    (pyStartsWith (pyLower s) "fw:" = false →
      forward_subject s = "Fwd: " ++ s) := by
  constructor <;> intro h <;> simp [forward_subject, h]

theorem forward_subject_spec_witness :
    forward_subject "FW: schůzka" = "FW: schůzka" ∧
    forward_subject "zpráva" = "Fwd: zpráva" :=
  ⟨(forward_subject_spec "FW: schůzka").1 (by decide),
   (forward_subject_spec "zpráva").2 (by decide)⟩

/-- C7: `reply` leaves the subject unchanged when it already starts,
case-insensitively, with `re:`, otherwise prepends exactly `Re: `; hence
the rule is idempotent and never doubles the prefix. -/
theorem reply_subject_spec (s : String) :
    (pyStartsWith (pyLower s) "re:" = true → reply_subject s = s) ∧
    (pyStartsWith (pyLower s) "re:" = false →
      reply_subject s = "Re: " ++ s) ∧
    reply_subject (reply_subject s) = reply_subject s := by
  refine ⟨fun h => by simp [reply_subject, h],
    fun h => by simp [reply_subject, h], ?_⟩
  by_cases h : pyStartsWith (pyLower s) "re:" = true
  · simp [reply_subject, h]
  · have h' : pyStartsWith (pyLower s) "re:" = false := by
      simpa using h
    have hs : reply_subject s = "Re: " ++ s := by simp [reply_subject, h']
    rw [hs]
    obtain ⟨l⟩ := s
    have hpre : pyStartsWith (pyLower ("Re: " ++ ⟨l⟩)) "re:" = true := rfl
    simp [reply_subject, hpre]

theorem reply_subject_spec_witness :
    reply_subject "Re: dotaz" = "Re: dotaz" ∧
    reply_subject "dotaz" = "Re: dotaz" ∧
    reply_subject (reply_subject "rE: vtip") = reply_subject "rE: vtip" :=
  ⟨(reply_subject_spec "Re: dotaz").1 (by decide),
   (reply_subject_spec "dotaz").2.1 (by decide),
   (reply_subject_spec "rE: vtip").2.2⟩

/-- C5 counterexample: a multipart message whose first non-attachment
`text/plain` part in document order fails both decode attempts (as a part
declaring an unknown charset does: `get_content()` raises, and the
fallback decodes with the part's *declared* charset, so the codec lookup
raises before `errors="replace"` can apply).  The `except: continue` at
lines 68-69 skips it, and `extract_text_plain` returns the content of the
*second* readable part — not the content of the first such part. -/
theorem extract_text_plain_first_part_cex :
    isReadable (PyMessage.single "text" "plain" none (.error ()) (.error ()))
      = true ∧
    (walk (PyMessage.multipart "mixed"
        [PyMessage.single "text" "plain" none (.error ()) (.error ()),
         PyMessage.single "text" "plain" none (.ok "druhá část")
           (.ok "druhá část")])).find? isReadable
      = some (PyMessage.single "text" "plain" none (.error ()) (.error ())) ∧
    try_decode (PyMessage.single "text" "plain" none (.error ()) (.error ()))
      = none ∧
    extract_text_plain (PyMessage.multipart "mixed"
        [PyMessage.single "text" "plain" none (.error ()) (.error ()),
         PyMessage.single "text" "plain" none (.ok "druhá část")
           (.ok "druhá část")])
      = "druhá část" :=
  ⟨rfl, rfl, rfl, rfl⟩

/-- C5 (amended): on a multipart message, `extract_text_plain` returns the
decoded content of the first part in `walk` (document) order whose content
type is `text/plain`, whose disposition is not `attachment`, and whose
decode chain succeeds; readable parts whose two decode attempts both fail
are skipped like unreadable ones.  When no readable part decodes it
returns the fixed "no readable text" placeholder; and on a single-part
message whose maintype is not `text` it returns the fixed "not of a
textual type" placeholder. -/
theorem extract_text_plain_spec :
    (∀ st parts w1 p w2 t,
        walk (.multipart st parts) = w1 ++ p :: w2 →
        (∀ q ∈ w1, isReadable q = false ∨ try_decode q = none) →
        isReadable p = true → try_decode p = some t →
        extract_text_plain (.multipart st parts) = t) ∧
    (∀ st parts,
        (∀ q ∈ walk (.multipart st parts),
          isReadable q = false ∨ try_decode q = none) →
        extract_text_plain (.multipart st parts)
          = "(Žádná čitelná textová část.)") ∧
    (∀ mt st d gRes pRes, mt ≠ "text" →
        extract_text_plain (.single mt st d gRes pRes)
          = "(Zpráva není textového typu.)") := by
  refine ⟨?_, ?_, ?_⟩
  · intro st parts w1 p w2 t hw h1 hp ht
    show scan_parts (walk (.multipart st parts)) = t
    rw [hw]
    exact scan_parts_first w1 p w2 t h1 hp ht
  · intro st parts h
    exact scan_parts_none (walk (.multipart st parts)) h
  · intro mt st d gRes pRes h
    have hb : (mt == "text") = false := by simpa using h
    simp [extract_text_plain, hb]

theorem extract_text_plain_spec_witness :
    extract_text_plain
        (.multipart "mixed"
          [.single "image" "png" (some "attachment") (.ok "PNG") (.ok "PNG"),
           .single "text" "plain" none (.error ()) (.error ()),
           .single "text" "plain" none (.ok "ahoj") (.ok "ahoj")]) = "ahoj" ∧
    extract_text_plain (.single "image" "png" none (.ok "PNG") (.ok "PNG"))
      = "(Zpráva není textového typu.)" :=
  ⟨extract_text_plain_spec.1 "mixed"
      [.single "image" "png" (some "attachment") (.ok "PNG") (.ok "PNG"),
       .single "text" "plain" none (.error ()) (.error ()),
       .single "text" "plain" none (.ok "ahoj") (.ok "ahoj")]
      [.multipart "mixed"
        [.single "image" "png" (some "attachment") (.ok "PNG") (.ok "PNG"),
         .single "text" "plain" none (.error ()) (.error ()),
         .single "text" "plain" none (.ok "ahoj") (.ok "ahoj")],
       .single "image" "png" (some "attachment") (.ok "PNG") (.ok "PNG"),
       .single "text" "plain" none (.error ()) (.error ())]
      (.single "text" "plain" none (.ok "ahoj") (.ok "ahoj"))
      [] "ahoj"
      rfl (by decide) (by decide) (by decide),
   extract_text_plain_spec.2.2 "image" "png" none (.ok "PNG") (.ok "PNG")
     (by decide)⟩

/-- C6: `decode_maybe` is total — it returns a plain `String` for every
input, never propagating an error: `None` maps to the empty string, a
successful library decode is returned as-is, and on a decoding failure the
raw value falls back to the replacement-decoded bytes (for bytes input) or
to the value itself (for string input). -/
theorem decode_maybe_spec (primary : HeaderValue → Except Unit String)
    (repl : List Nat → String) :
    (decode_maybe primary repl .none = "") ∧
    (∀ s out, primary (.str s) = .ok out →
      decode_maybe primary repl (.str s) = out) ∧
    (∀ b out, primary (.bytes b) = .ok out →
      decode_maybe primary repl (.bytes b) = out) ∧
    (∀ s, primary (.str s) = .error () →
      decode_maybe primary repl (.str s) = s) ∧
    (∀ b, primary (.bytes b) = .error () →
      decode_maybe primary repl (.bytes b) = repl b) := by
  refine ⟨rfl, ?_, ?_, ?_, ?_⟩
  · intro s out h
    simp [decode_maybe, h]
  · intro b out h
    simp [decode_maybe, h]
  · intro s h
    simp [decode_maybe, h]
  · intro b h
    simp [decode_maybe, h]

theorem decode_maybe_spec_witness :
    decode_maybe (fun _ => .error ()) (fun _ => "��")
      (.bytes [255, 254]) = "��" :=
  (decode_maybe_spec (fun _ => .error ())
    (fun _ => "��")).2.2.2.2 [255, 254] rfl

/-- C10: `fetch_headers` returns the triple of three empty strings whenever
the response status is not `OK`, or the data list is empty, or its first
item is not the header tuple; and a message whose three headers are all
absent also yields the same triple, so a failed fetch is indistinguishable
from it at this interface. -/
theorem fetch_headers_failure_spec (primary : HeaderValue → Except Unit String)
    (repl : List Nat → String) (typ : String) (data : List FetchDatum) :
    (typ ≠ "OK" → fetch_headers primary repl typ data = ("", "", "")) ∧
    (data = [] → fetch_headers primary repl typ data = ("", "", "")) ∧
    (∀ rest, data = .nontup :: rest →
      fetch_headers primary repl typ data = ("", "", "")) ∧
    (∀ rest, fetch_headers primary repl "OK" (.tup .none .none .none :: rest)
      = ("", "", "")) := by
  refine ⟨?_, ?_, ?_, fun rest => rfl⟩
  · intro h
    have hb : (typ == "OK") = false := by simpa using h
    cases data with
    | nil => simp [fetch_headers, hb]
    | cons d rest => cases d <;> simp [fetch_headers, hb]
  · intro h
    subst h
    cases hb : (typ == "OK") <;> simp [fetch_headers, hb]
  · intro rest h
    subst h
    cases hb : (typ == "OK") <;> simp [fetch_headers, hb]

theorem fetch_headers_failure_spec_witness :
    fetch_headers (fun _ => .error ()) (fun _ => "") "NO" [] = ("", "", "") :=
  (fetch_headers_failure_spec (fun _ => .error ()) (fun _ => "") "NO" []).1
    (by decide)

/-- C9 counterexample: the input line `","` passes the non-empty-input
enforcement (it is stripped and non-empty), yet splitting on commas and
stripping whitespace produces an empty address list — the enforcement does
not guarantee a non-empty To list. -/
theorem compose_to_addrs_cex :
    input_nonempty_post [','] ∧ split_addrs [','] = [] :=
  ⟨⟨rfl, by decide⟩, rfl⟩

/-- C9 (amended): the address list built by `compose_and_send` is non-empty
provided the input line contains at least one character that is neither a
comma nor whitespace; an input consisting only of commas and whitespace
passes the non-empty-input check but yields an empty list. -/
theorem split_addrs_nonempty (s : List Char) (c : Char) (hmem : c ∈ s)
    (hcomma : c ≠ ',') (hspace : pyIsSpace c = false) :
    split_addrs s ≠ [] := by
  obtain ⟨chunk, hchunk, hc⟩ := mem_pySplitOn hcomma s hmem
  have h1 : c ∈ pyStrip chunk := mem_pyStrip hspace chunk hc
  have h2 : pyStrip chunk ≠ [] := List.ne_nil_of_mem h1
  have h4 : pyStrip chunk ∈ split_addrs s := by
    unfold split_addrs
    refine List.mem_filter.mpr ⟨List.mem_map_of_mem pyStrip hchunk, ?_⟩
    simpa using h2
  exact List.ne_nil_of_mem h4

theorem split_addrs_nonempty_witness : split_addrs ['a', '@', 'b'] ≠ [] :=
  split_addrs_nonempty ['a', '@', 'b'] 'a' (by decide) (by decide) (by decide)
